import Mathlib

/-!
Verification of the fleet health monitor (main.go) against its
natural-language specification.

The Go source is shallowly embedded below.  Go strings are Lean Strings,
float64 values are modelled as exact rationals, the standard library
helpers (strings.Split, strings.Fields, strings.Trim, strconv.ParseFloat)
are re-implemented faithfully for the inputs the program handles, and the
effectful parts (command execution, Telegram delivery, the HTTP mux) are
modelled by passing the environment's behaviour in as explicit data and
returning the emitted messages as explicit lists.
-/

/-! ## Go standard-library string helpers -/

/-- Core splitter: cuts a character list at every character satisfying p,
keeping empty segments (the behaviour of strings.Split with a
one-character separator). -/
def splitByPred (p : Char → Bool) : List Char → List (List Char)
  | [] => [[]]
  | c :: rest =>
    if p c then [] :: splitByPred p rest
    else
      match splitByPred p rest with
      | [] => [[c]]
      | l :: ls => (c :: l) :: ls

/-- strings.Split(s, sep) for a one-character separator sep, the only form
the program uses (sep is "\n" or ":"). -/
def goSplit (sep : Char) (s : String) : List String :=
  (splitByPred (fun c => c == sep) s.data).map String.mk

/-- unicode.IsSpace restricted to the ASCII range; the status-report text
the program parses is ASCII.  (The non-ASCII Unicode space code points are
not modelled.) -/
def goIsSpace (c : Char) : Bool :=
  c == ' ' || c == '\t' || c == '\n' || c == '\x0b' || c == '\x0c' || c == '\r'

/-- strings.Fields: split around runs of white space, dropping empty
segments. -/
def goFields (s : String) : List String :=
  ((splitByPred goIsSpace s.data).filter (fun l => !l.isEmpty)).map String.mk

/-- strings.Trim(s, cutset): remove leading and trailing characters that
occur in the cutset.  Note that Go trims both ends, not only the tail. -/
def goTrim (cutset : List Char) (s : String) : String :=
  String.mk (((s.data.dropWhile (fun c => cutset.contains c)).reverse.dropWhile
    (fun c => cutset.contains c)).reverse)

/-- Numeric value of a list of decimal digits. -/
def digitsVal (ds : List Char) : ℕ :=
  ds.foldl (fun a c => 10 * a + (c.toNat - '0'.toNat)) 0

/-- strconv.ParseFloat(s, 64), modelled exactly over the rationals and
restricted to plain decimal notation within float64 range (optional sign,
integer digits, optional fractional digits): the notation produced by the
status report this program parses.  Exponent, hexadecimal, Inf and NaN
forms, the out-of-range failure, and the rounding of the result to binary
float64 are not modelled here; every claim that depends on the exact
failure behaviour of strconv.ParseFloat beyond this fragment is settled
over parseSSHOutputWith below, which keeps the conversion abstract. -/
def parseGoFloat (s : String) : Option ℚ :=
  let signed : Bool × List Char :=
    match s.data with
    | '-' :: rest => (true, rest)
    | '+' :: rest => (false, rest)
    | cs => (false, cs)
  let intDs := signed.2.takeWhile Char.isDigit
  let rest1 := signed.2.dropWhile Char.isDigit
  let mval : Option ℚ :=
    match rest1 with
    | [] => if intDs.isEmpty then none else some (digitsVal intDs : ℚ)
    | '.' :: rest2 =>
      let fracDs := rest2.takeWhile Char.isDigit
      let rest3 := rest2.dropWhile Char.isDigit
      if !rest3.isEmpty then none
      else if intDs.isEmpty && fracDs.isEmpty then none
      else some ((digitsVal intDs : ℚ) + (digitsVal fracDs : ℚ) / (10 : ℚ) ^ fracDs.length)
    | _ => none
  match mval with
  | none => none
  | some v => some (if signed.1 then -v else v)

/-- Error text of the strconv.NumError returned by strconv.ParseFloat on a
syntactically malformed plain-decimal token without escape sequences (for
such tokens strconv.Quote only adds the surrounding quotes).  The general
quoted-token and out-of-range messages of the standard library are not
enumerated here; claims about them are settled over the abstract-conversion
parser parseSSHOutputWith below. -/
def strconvErr (s : String) : String :=
  "strconv.ParseFloat: parsing \"" ++ s ++ "\": invalid syntax"

/-! ## Metric parser (parseSSHOutput, main.go lines 63-111) -/

/-- The five-value return of parseSSHOutput: (cpu, mem, disk, uptime, err). -/
structure ParsedOutput where
  cpu : ℚ
  mem : ℚ
  disk : ℚ
  uptime : String
  err : Option String
deriving DecidableEq

/-- The five categorized parse-failure strings named by the specification. -/
def catStrings : List String :=
  ["unexpected output format", "unexpected CPU usage format",
   "unexpected CPU usage fields", "unexpected memory usage fields",
   "unexpected disk usage fields"]

/-- Disk section of parseSSHOutput (main.go lines 100-110).  List indexing
is modelled by getElem?; a none result stands for a Go index-out-of-range
panic. -/
def parseSSHOutputDisk (cpu mem : ℚ) (uptime : String) (lines : List String) :
    Option ParsedOutput :=
  match lines[10]? with
  | none => none
  | some line10 =>
    let diskUsageLine := goFields line10
    if diskUsageLine.length < 5 then
      some ⟨0, 0, 0, "", some "unexpected disk usage fields"⟩
    else
      match diskUsageLine[4]? with
      | none => none
      | some tok4 =>
        match parseGoFloat (goTrim ['%', ','] tok4) with
        | none => some ⟨0, 0, 0, "", some (strconvErr (goTrim ['%', ','] tok4))⟩
        | some diskUsage => some ⟨cpu, mem, diskUsage, uptime, none⟩

/-- Memory section of parseSSHOutput (main.go lines 85-98).  Go computes
usedMem/totalMem*100 in float64; here the division is exact in ℚ (whose
division by zero yields 0 where float64 yields ±Inf or NaN; no settled
claim depends on that corner). -/
def parseSSHOutputMem (cpu : ℚ) (uptime : String) (lines : List String) :
    Option ParsedOutput :=
  match lines[6]? with
  | none => none
  | some line6 =>
    let memUsageLine := goFields line6
    if memUsageLine.length < 7 then
      some ⟨0, 0, 0, "", some "unexpected memory usage fields"⟩
    else
      match memUsageLine[1]? with
      | none => none
      | some tok1 =>
        match parseGoFloat tok1 with
        | none => some ⟨0, 0, 0, "", some (strconvErr tok1)⟩
        | some totalMem =>
          match memUsageLine[2]? with
          | none => none
          | some tok2 =>
            match parseGoFloat tok2 with
            | none => some ⟨0, 0, 0, "", some (strconvErr tok2)⟩
            | some usedMem =>
              parseSSHOutputDisk cpu (usedMem / totalMem * 100) uptime lines

/-- CPU section of parseSSHOutput (main.go lines 71-83): the line is split
at every ":" and element 1 of that split (the segment between the first
and second colon) is whitespace-tokenized. -/
def parseSSHOutputCpu (uptime line3 : String) (lines : List String) :
    Option ParsedOutput :=
  let cpuUsageLine := goSplit ':' line3
  if cpuUsageLine.length < 2 then
    some ⟨0, 0, 0, "", some "unexpected CPU usage format"⟩
  else
    match cpuUsageLine[1]? with
    | none => none
    | some seg =>
      let cpuUsageFields := goFields seg
      if cpuUsageFields.length < 8 then
        some ⟨0, 0, 0, "", some "unexpected CPU usage fields"⟩
      else
        match cpuUsageFields[0]? with
        | none => none
        | some tok0 =>
          match parseGoFloat (goTrim ['%', ','] tok0) with
          | none => some ⟨0, 0, 0, "", some (strconvErr (goTrim ['%', ','] tok0))⟩
          | some cpuUsage => parseSSHOutputMem cpuUsage uptime lines

/-- parseSSHOutput (main.go lines 63-111).  A some result is the Go
five-value return; none stands for an index-out-of-range panic. -/
def parseSSHOutput (output : String) : Option ParsedOutput :=
  let lines := goSplit '\n' output
  if lines.length < 12 then some ⟨0, 0, 0, "", some "unexpected output format"⟩
  else
    match lines[1]?, lines[3]? with
    | some uptime, some line3 => parseSSHOutputCpu uptime line3 lines
    | _, _ => none

/-- Total wrapper used by the health-cycle embedding; the default is never
reached (the parser never panics, as proved below). -/
def parseGo (output : String) : ParsedOutput :=
  (parseSSHOutput output).getD ⟨0, 0, 0, "", some "unreachable"⟩

/-- Disk section of the parser with the numeric conversion kept abstract:
pf stands for strconv.ParseFloat, returning either the converted value or
the error Go would return for that token (whose exact text, including
strconv.Quote escaping and the value-out-of-range message, is a property
of the Go standard library, not of this repository).  The code is
letter-for-letter parseSSHOutputDisk with pf in place of the modelled
conversion; parseSSHOutputWith_go below proves that instantiating pf at
the modelled conversion yields parseSSHOutput again. -/
def parseWithDisk (pf : String → Except String ℚ) (cpu mem : ℚ) (uptime : String)
    (lines : List String) : Option ParsedOutput :=
  match lines[10]? with
  | none => none
  | some line10 =>
    let diskUsageLine := goFields line10
    if diskUsageLine.length < 5 then
      some ⟨0, 0, 0, "", some "unexpected disk usage fields"⟩
    else
      match diskUsageLine[4]? with
      | none => none
      | some tok4 =>
        match pf (goTrim ['%', ','] tok4) with
        | .error e => some ⟨0, 0, 0, "", some e⟩
        | .ok diskUsage => some ⟨cpu, mem, diskUsage, uptime, none⟩

/-- Memory section of the parser with the numeric conversion kept
abstract (parseSSHOutputMem with pf for strconv.ParseFloat). -/
def parseWithMem (pf : String → Except String ℚ) (cpu : ℚ) (uptime : String)
    (lines : List String) : Option ParsedOutput :=
  match lines[6]? with
  | none => none
  | some line6 =>
    let memUsageLine := goFields line6
    if memUsageLine.length < 7 then
      some ⟨0, 0, 0, "", some "unexpected memory usage fields"⟩
    else
      match memUsageLine[1]? with
      | none => none
      | some tok1 =>
        match pf tok1 with
        | .error e => some ⟨0, 0, 0, "", some e⟩
        | .ok totalMem =>
          match memUsageLine[2]? with
          | none => none
          | some tok2 =>
            match pf tok2 with
            | .error e => some ⟨0, 0, 0, "", some e⟩
            | .ok usedMem => parseWithDisk pf cpu (usedMem / totalMem * 100) uptime lines

/-- CPU section of the parser with the numeric conversion kept abstract
(parseSSHOutputCpu with pf for strconv.ParseFloat). -/
def parseWithCpu (pf : String → Except String ℚ) (uptime line3 : String)
    (lines : List String) : Option ParsedOutput :=
  let cpuUsageLine := goSplit ':' line3
  if cpuUsageLine.length < 2 then
    some ⟨0, 0, 0, "", some "unexpected CPU usage format"⟩
  else
    match cpuUsageLine[1]? with
    | none => none
    | some seg =>
      let cpuUsageFields := goFields seg
      if cpuUsageFields.length < 8 then
        some ⟨0, 0, 0, "", some "unexpected CPU usage fields"⟩
      else
        match cpuUsageFields[0]? with
        | none => none
        | some tok0 =>
          match pf (goTrim ['%', ','] tok0) with
          | .error e => some ⟨0, 0, 0, "", some e⟩
          | .ok cpuUsage => parseWithMem pf cpuUsage uptime lines

/-- parseSSHOutput with the numeric conversion kept abstract: the same
embedding of main.go lines 63-111, with strconv.ParseFloat as the
parameter pf instead of the modelled decimal fragment. -/
def parseSSHOutputWith (pf : String → Except String ℚ) (output : String) :
    Option ParsedOutput :=
  let lines := goSplit '\n' output
  if lines.length < 12 then some ⟨0, 0, 0, "", some "unexpected output format"⟩
  else
    match lines[1]?, lines[3]? with
    | some uptime, some line3 => parseWithCpu pf uptime line3 lines
    | _, _ => none

/-- The modelled conversion packaged as an abstract conversion: value on
success, the modelled strconv error text on failure. -/
def goParseFloatE (s : String) : Except String ℚ :=
  match parseGoFloat s with
  | none => Except.error (strconvErr s)
  | some v => Except.ok v

/-- Example abstract conversion whose failures carry the out-of-range
strconv message, used to exercise that failure text in a witness. -/
def rangeErrConv : String → Except String ℚ :=
  fun _ => Except.error "strconv.ParseFloat: parsing \"q\": value out of range"

/-! ## Command runner (runSSHCommand, main.go lines 46-61) -/

/-- Timeout handed to context.WithTimeout, in seconds. -/
def sshTimeoutSeconds : ℕ := 10

/-- Behaviour of one shell-command execution, supplied by the environment:
its wall-clock duration in seconds, its exit error (none = exit status 0)
and the standard output it produced. -/
structure CmdExecution where
  duration : ℕ
  exitErr : Option String
  stdout : String
deriving DecidableEq

/-- runSSHCommand: the context deadline has fired exactly when the
wall-clock duration reached the 10-second deadline, in which case the
captured output is discarded and the distinguished error text is
returned; otherwise a non-nil run error is propagated with empty output,
and a clean exit returns the captured stdout. -/
def runSSHCommand (e : CmdExecution) : String × Option String :=
  if sshTimeoutSeconds ≤ e.duration then ("", some "command timed out")
  else
    match e.exitErr with
    | some reason => ("", some reason)
    | none => (e.stdout, none)

/-! ## Notifier (sendTelegramMessage, main.go lines 33-44) -/

inductive SendOutcome where
  | panicked (msg : String)
  | returned
deriving DecidableEq

/-- sendTelegramMessage, given the environment's behaviour for the two
fallible client calls.  tgbotapi.NewBotAPI failure hits log.Panic (the
error is logged, then the goroutine panics); on success the message is
handed to bot.Send whose error result is discarded without being logged.
The second component lists what was written to the local log. -/
def sendTelegramMessage (newBotResult : Except String Unit)
    (sendResult : Except String Unit) : SendOutcome × List String :=
  match newBotResult with
  | .error e => (.panicked e, [e])
  | .ok _ =>
    match sendResult with
    | .error _ => (.returned, [])
    | .ok _ => (.returned, [])

/-! ## Log-delta detection (checkErrorLogChanges / checkValidatorLogs,
main.go lines 113-207) -/

/-- Membership loop (contains, main.go lines 157-164). -/
def contains (lines : List String) (line : String) : Bool :=
  match lines with
  | [] => false
  | l :: rest => if l == line then true else contains rest line

/-- Body of the changes-accumulation loop: append the new line when it is
not contained in the old lines. -/
def changesStep (oldLines changes : List String) (newLine : String) : List String :=
  if !contains oldLines newLine then changes ++ [newLine] else changes

/-- The changes-accumulation loop (main.go lines 136-141 and 189-194):
every new line not contained in the old lines, appended in order. -/
def computeChanges (oldLines newLines : List String) : List String :=
  newLines.foldl (changesStep oldLines) []

/-- Per-stream snapshot state: the pair of package-level variables
(isFirst...Check, previous...Content) of one stream. -/
structure LogState where
  isFirstCheck : Bool
  previousContent : String
deriving DecidableEq

/-- Result of one per-host loop body of a log probe: the new snapshot
state, the Telegram messages sent, and the lines written to the local
log. -/
structure StepResult where
  state : LogState
  sends : List String
  logs : List String
deriving DecidableEq

/-- Loop body of checkErrorLogChanges for one host (main.go lines
116-153), after a successful runSSHCommand with the given output. -/
def checkErrorLogStep (st : LogState) (ip output : String) : StepResult :=
  if st.isFirstCheck then ⟨⟨false, output⟩, [], []⟩
  else if output ≠ st.previousContent then
    let newLines := goSplit '\n' output
    let oldLines := goSplit '\n' st.previousContent
    let changes := computeChanges oldLines newLines
    if changes.length > 0 then
      let changeMessage := "New log entries detected on server controller@" ++ ip ++
        ":\n" ++ String.intercalate "\n" changes
      ⟨⟨st.isFirstCheck, output⟩, [changeMessage], [changeMessage]⟩
    else ⟨⟨st.isFirstCheck, output⟩, [], []⟩
  else ⟨st, [], ["No changes detected in log."]⟩

/-- Loop body of checkValidatorLogs for one host (main.go lines 169-206),
after a successful runSSHCommand with the given output.  In the
changed-content branch the non-empty change list is only printed locally
(log.Println; the printed slice rendering is abbreviated here); in the
unchanged branch the liveness alert is logged and sent. -/
def checkValidatorStep (st : LogState) (ip output : String) : StepResult :=
  if st.isFirstCheck then ⟨⟨false, output⟩, [], []⟩
  else if output ≠ st.previousContent then
    let changes := computeChanges (goSplit '\n' st.previousContent) (goSplit '\n' output)
    if changes.length > 0 then
      ⟨⟨st.isFirstCheck, output⟩, [], [String.intercalate "\n" changes]⟩
    else ⟨⟨st.isFirstCheck, output⟩, [], []⟩
  else
    let errorMessage := "Error: Validator is not functioning on server controller@" ++ ip ++ "."
    ⟨st, [errorMessage], [errorMessage]⟩

/-! ## Health cycle (checkHealth, main.go lines 209-257) -/

/-- fmt %d of a host index. -/
def goItoa (n : ℕ) : String := toString n

/-- fmt %.2f, modelled by rounding the exact rational to two decimals
(ties rounded half up where Go rounds the underlying binary float to
nearest-even; no settled claim depends on tie formatting). -/
def goFormat2 (q : ℚ) : String :=
  let scaled : ℤ := round (q * 100)
  let a := scaled.natAbs
  (if scaled < 0 then "-" else "") ++ goItoa (a / 100) ++ "." ++
    (if a % 100 < 10 then "0" else "") ++ goItoa (a % 100)

/-- Accumulator of the per-host loop of checkHealth: the messages and
errorMessages slices, the highUsage flag, and the Telegram messages
already sent inside the loop (the per-host timeout alerts). -/
structure HealthState where
  messages : List String
  errorMessages : List String
  highUsage : Bool
  sends : List String
deriving DecidableEq

/-- One iteration of the checkHealth loop (main.go lines 221-244) for
host index i (0-based; messages use i+1). -/
def healthStep (i : ℕ) (e : CmdExecution) (st : HealthState) : HealthState :=
  match runSSHCommand e with
  | (_, some err) =>
    if err = "command timed out" then
      { st with sends := st.sends ++
          ["Error: SSH command to server " ++ goItoa (i + 1) ++ " timed out"] }
    else
      { st with errorMessages := st.errorMessages ++
          ["Error running SSH command for server " ++ goItoa (i + 1) ++ ": " ++ err] }
  | (output, none) =>
    let r := parseGo output
    match r.err with
    | some perr =>
      { st with errorMessages := st.errorMessages ++
          ["Error parsing SSH output for server " ++ goItoa (i + 1) ++ ": " ++ perr] }
    | none =>
      { st with
        messages := st.messages ++
          ["Server " ++ goItoa (i + 1) ++ " - CPU Usage: " ++ goFormat2 r.cpu ++
           "%, Memory Usage: " ++ goFormat2 r.mem ++ "%, Disk Usage: " ++
           goFormat2 r.disk ++ "%, Uptime: " ++ r.uptime],
        highUsage := st.highUsage ||
          (decide (80 < r.cpu) || decide (80 < r.mem) || decide (80 < r.disk)) }

/-- The checkHealth loop over the per-host executions, carrying the
0-based index. -/
def healthLoop : ℕ → List CmdExecution → HealthState → HealthState
  | _, [], st => st
  | i, e :: rest, st => healthLoop (i + 1) rest (healthStep i e st)

/-- checkHealth (main.go lines 209-257), given the environment's behaviour
for each host's command.  Returns the final loop state, the full ordered
list of Telegram sends, and the lines written to the local log. -/
def checkHealth (execs : List CmdExecution) : HealthState × List String × List String :=
  let st := healthLoop 0 execs ⟨[], [], false, []⟩
  let finalMessage := "Health Check:\n" ++ String.intercalate "\n" st.messages
  let warnSends :=
    if st.highUsage then ["Warning: High resource usage detected!\n" ++ finalMessage]
    else []
  let localLogs := if st.highUsage then ([] : List String) else [finalMessage]
  let errSends :=
    if 0 < st.errorMessages.length then
      ["Errors occurred during health check:\n" ++ String.intercalate "\n" st.errorMessages]
    else []
  (st, st.sends ++ warnSends ++ errSends, localLogs)

/-- Whether one host's execution contributes highUsage = true: a clean
run whose output parses with some metric strictly above 80. -/
def execHigh (e : CmdExecution) : Bool :=
  match runSSHCommand e with
  | (output, none) =>
    let r := parseGo output
    r.err.isNone && (decide (80 < r.cpu) || decide (80 < r.mem) || decide (80 < r.disk))
  | (_, some _) => false

/-- The Telegram message the checkHealth loop sends for host index i, if
any (only the per-host timeout alert is sent inside the loop). -/
def timeoutMsgOf (i : ℕ) (e : CmdExecution) : Option String :=
  match runSSHCommand e with
  | (_, some err) =>
    if err = "command timed out" then
      some ("Error: SSH command to server " ++ goItoa (i + 1) ++ " timed out")
    else none
  | (_, none) => none

/-- The entry the checkHealth loop appends to errorMessages for host
index i, if any. -/
def errMsgOf (i : ℕ) (e : CmdExecution) : Option String :=
  match runSSHCommand e with
  | (_, some err) =>
    if err = "command timed out" then none
    else some ("Error running SSH command for server " ++ goItoa (i + 1) ++ ": " ++ err)
  | (output, none) =>
    match (parseGo output).err with
    | some perr =>
      some ("Error parsing SSH output for server " ++ goItoa (i + 1) ++ ": " ++ perr)
    | none => none

/-- Ordered collection of the some-results of an indexed message
function over the host list, starting at index i. -/
def collectIdx (f : ℕ → CmdExecution → Option String) : ℕ → List CmdExecution → List String
  | _, [] => []
  | i, e :: rest => (f i e).toList ++ collectIdx f (i + 1) rest

/-! ## HTTP surface (main, main.go lines 259-270) -/

/-- The handler patterns main registers on the default mux before calling
http.ListenAndServe(":8002", nil).  main.go lines 259-270 contain no
http.HandleFunc or http.Handle call, so the list is empty. -/
def registeredPatterns : List String := []

/-- The listen address handed to http.ListenAndServe. -/
def listenAddr : String := ":8002"

structure HttpResponse where
  status : ℕ
  body : String
deriving DecidableEq

/-- Dispatch of the net/http default mux over the registered patterns: an
unmatched path receives the standard 404 page.  The 200 arm is
unreachable because no pattern is registered. -/
def serveMux (path : String) : HttpResponse :=
  if registeredPatterns.contains path then ⟨200, ""⟩
  else ⟨404, "404 page not found\n"⟩

/-! ## Definitions following the claims' words (for refinement checks) -/

/-- Follows claim C4's words, not the source: the entire right side of
the line's first colon. -/
def claimRightOfFirstColon (line : String) : String :=
  String.mk ((line.data.dropWhile (fun c => c ≠ ':')).drop 1)

/-- Follows claim C4's words, not the source: strip only trailing '%' and
',' characters. -/
def claimTrimTrailing (s : String) : String :=
  String.mk ((s.data.reverse.dropWhile (fun c => c = '%' || c = ',')).reverse)

/-- Concrete parser input exercising a CPU line with two colons (12
lines, line index 3 is the CPU line). -/
def cpuTwoColonInput : String :=
  "h\nup\n\nc: x:a b c d e f g h\n\n\n\n\n\n\n\n"

/-- Concrete parser input whose CPU token is not numeric (12 lines). -/
def cpuBadTokenInput : String :=
  "h\nup\n\ncpu: x1 a b c d e f g\n\n\n\n\n\n\n\n"

/-! ## Helper lemmas -/

theorem contains_iff_mem (lines : List String) (l : String) :
    contains lines l = true ↔ l ∈ lines := by
  induction lines with
  | nil => simp [contains]
  | cons x rest ih =>
    by_cases hx : x = l
    · simp [contains, hx]
    · simp [contains, hx, ih, beq_iff_eq, Ne.symm hx]

theorem computeChanges_aux (oldLines : List String) (newLines : List String) :
    ∀ acc : List String,
      newLines.foldl (changesStep oldLines) acc =
      acc ++ newLines.filter (fun l => !contains oldLines l) := by
  induction newLines with
  | nil => intro acc; simp
  | cons x rest ih =>
    intro acc
    rw [List.foldl_cons, List.filter_cons]
    cases hx : contains oldLines x with
    | false =>
      rw [show changesStep oldLines acc x = acc ++ [x] by simp [changesStep, hx], ih (acc ++ [x])]
      simp [hx]
    | true =>
      rw [show changesStep oldLines acc x = acc by simp [changesStep, hx], ih acc]
      simp [hx]

theorem computeChanges_eq_filter (oldLines newLines : List String) :
    computeChanges oldLines newLines =
      newLines.filter (fun l => !contains oldLines l) := by
  unfold computeChanges
  rw [computeChanges_aux oldLines newLines []]
  simp

theorem splitByPred_ne_nil (p : Char → Bool) (cs : List Char) :
    splitByPred p cs ≠ [] := by
  cases cs with
  | nil => simp [splitByPred]
  | cons c rest =>
    by_cases hc : p c = true
    · simp [splitByPred, hc]
    · simp only [splitByPred, hc]
      cases h : splitByPred p rest with
      | nil => simp
      | cons l ls => simp

theorem splitByPred_append (p : Char → Bool) (c : Char) (hc : p c = true) :
    ∀ a b : List Char,
      splitByPred p (a ++ c :: b) = splitByPred p a ++ splitByPred p b := by
  intro a
  induction a with
  | nil => intro b; simp [splitByPred, hc]
  | cons x a' ih =>
    intro b
    by_cases hx : p x = true
    · simp [splitByPred, hx, ih]
    · rw [List.cons_append]
      rcases h : splitByPred p a' with _ | ⟨l, ls⟩
      · exact absurd h (splitByPred_ne_nil p a')
      · simp only [splitByPred, hx, Bool.false_eq_true, if_false]
        rw [ih b, h]
        simp

theorem data_append (s t : String) : (s ++ t).data = s.data ++ t.data := rfl

theorem goSplit_newline_append (old app : String) :
    goSplit '\n' (old ++ "\n" ++ app) = goSplit '\n' old ++ goSplit '\n' app := by
  have hdata : (old ++ "\n" ++ app).data = old.data ++ '\n' :: app.data := by
    rw [data_append, data_append, List.append_assoc]
    rfl
  simp only [goSplit, hdata, splitByPred_append (fun c => c == '\n') '\n' (by decide),
    List.map_append]

theorem strconvErr_ne_u (s t : String) (ht : t.data.head? = some 'u') :
    strconvErr s ≠ t := by
  intro h
  have h2 : (strconvErr s).data.head? = some 's' := rfl
  rw [h, ht] at h2
  exact absurd h2 (by decide)

theorem parseSSHOutputDisk_shape (cpu mem : ℚ) (uptime : String) (lines : List String)
    (h : 12 ≤ lines.length) :
    (∃ d, parseSSHOutputDisk cpu mem uptime lines = some ⟨cpu, mem, d, uptime, none⟩) ∨
    (∃ e, parseSSHOutputDisk cpu mem uptime lines = some ⟨0, 0, 0, "", some e⟩ ∧
      (e = "unexpected disk usage fields" ∨ ∃ s, e = strconvErr s)) := by
  have h10 : lines[10]? = some lines[10] := List.getElem?_eq_getElem (by omega)
  by_cases hlen : (goFields lines[10]).length < 5
  · right
    exact ⟨"unexpected disk usage fields", by simp [parseSSHOutputDisk, h10, hlen], Or.inl rfl⟩
  · have h4 : (goFields lines[10])[4]? = some (goFields lines[10])[4] :=
      List.getElem?_eq_getElem (by omega)
    rcases hpf : parseGoFloat (goTrim ['%', ','] (goFields lines[10])[4]) with _ | d
    · right
      refine ⟨strconvErr (goTrim ['%', ','] (goFields lines[10])[4]), ?_, Or.inr ⟨_, rfl⟩⟩
      simp [parseSSHOutputDisk, h10, hlen, h4, hpf]
    · left
      exact ⟨d, by simp [parseSSHOutputDisk, h10, hlen, h4, hpf]⟩

theorem parseSSHOutputMem_shape (cpu : ℚ) (uptime : String) (lines : List String)
    (h : 12 ≤ lines.length) :
    (∃ m d, parseSSHOutputMem cpu uptime lines = some ⟨cpu, m, d, uptime, none⟩) ∨
    (∃ e, parseSSHOutputMem cpu uptime lines = some ⟨0, 0, 0, "", some e⟩ ∧
      (e = "unexpected memory usage fields" ∨ e = "unexpected disk usage fields" ∨
       ∃ s, e = strconvErr s)) := by
  have h6 : lines[6]? = some lines[6] := List.getElem?_eq_getElem (by omega)
  by_cases hlen : (goFields lines[6]).length < 7
  · right
    exact ⟨"unexpected memory usage fields", by simp [parseSSHOutputMem, h6, hlen], Or.inl rfl⟩
  · have h1 : (goFields lines[6])[1]? = some (goFields lines[6])[1] :=
      List.getElem?_eq_getElem (by omega)
    rcases hp1 : parseGoFloat (goFields lines[6])[1] with _ | totalMem
    · right
      refine ⟨strconvErr (goFields lines[6])[1], ?_,
        Or.inr (Or.inr ⟨(goFields lines[6])[1], rfl⟩)⟩
      simp [parseSSHOutputMem, h6, hlen, h1, hp1]
    · have h2 : (goFields lines[6])[2]? = some (goFields lines[6])[2] :=
        List.getElem?_eq_getElem (by omega)
      rcases hp2 : parseGoFloat (goFields lines[6])[2] with _ | usedMem
      · right
        refine ⟨strconvErr (goFields lines[6])[2], ?_,
          Or.inr (Or.inr ⟨(goFields lines[6])[2], rfl⟩)⟩
        simp [parseSSHOutputMem, h6, hlen, h1, hp1, h2, hp2]
      · have heq : parseSSHOutputMem cpu uptime lines =
            parseSSHOutputDisk cpu (usedMem / totalMem * 100) uptime lines := by
          simp [parseSSHOutputMem, h6, hlen, h1, hp1, h2, hp2]
        rw [heq]
        rcases parseSSHOutputDisk_shape cpu (usedMem / totalMem * 100) uptime lines h with
          ⟨d, hd⟩ | ⟨e, he, hcat⟩
        · exact Or.inl ⟨usedMem / totalMem * 100, d, hd⟩
        · exact Or.inr ⟨e, he, Or.inr hcat⟩

theorem parseSSHOutputCpu_shape (uptime line3 : String) (lines : List String)
    (h : 12 ≤ lines.length) :
    (∃ c m d, parseSSHOutputCpu uptime line3 lines = some ⟨c, m, d, uptime, none⟩) ∨
    (∃ e, parseSSHOutputCpu uptime line3 lines = some ⟨0, 0, 0, "", some e⟩ ∧
      (e = "unexpected CPU usage format" ∨ e = "unexpected CPU usage fields" ∨
       e = "unexpected memory usage fields" ∨ e = "unexpected disk usage fields" ∨
       ∃ s, e = strconvErr s)) := by
  by_cases hcol : (goSplit ':' line3).length < 2
  · right
    exact ⟨"unexpected CPU usage format", by simp [parseSSHOutputCpu, hcol], Or.inl rfl⟩
  · have hseg : (goSplit ':' line3)[1]? = some (goSplit ':' line3)[1] :=
      List.getElem?_eq_getElem (by omega)
    by_cases hflen : (goFields (goSplit ':' line3)[1]).length < 8
    · right
      refine ⟨"unexpected CPU usage fields", ?_, Or.inr (Or.inl rfl)⟩
      simp [parseSSHOutputCpu, hcol, hseg, hflen]
    · have h0 : (goFields (goSplit ':' line3)[1])[0]? =
          some (goFields (goSplit ':' line3)[1])[0] :=
        List.getElem?_eq_getElem (by omega)
      rcases hpf : parseGoFloat (goTrim ['%', ','] (goFields (goSplit ':' line3)[1])[0]) with
        _ | cpuUsage
      · right
        refine ⟨strconvErr (goTrim ['%', ','] (goFields (goSplit ':' line3)[1])[0]), ?_,
          Or.inr (Or.inr (Or.inr (Or.inr
            ⟨goTrim ['%', ','] (goFields (goSplit ':' line3)[1])[0], rfl⟩)))⟩
        simp [parseSSHOutputCpu, hcol, hseg, hflen, h0, hpf]
      · have heq : parseSSHOutputCpu uptime line3 lines =
            parseSSHOutputMem cpuUsage uptime lines := by
          simp [parseSSHOutputCpu, hcol, hseg, hflen, h0, hpf]
        rw [heq]
        rcases parseSSHOutputMem_shape cpuUsage uptime lines h with
          ⟨m, d, hd⟩ | ⟨e, he, hcat⟩
        · exact Or.inl ⟨cpuUsage, m, d, hd⟩
        · exact Or.inr ⟨e, he, Or.inr (Or.inr hcat)⟩

theorem parseSSHOutput_shape (output : String) :
    (∃ c m d u, parseSSHOutput output = some ⟨c, m, d, u, none⟩) ∨
    (∃ e, parseSSHOutput output = some ⟨0, 0, 0, "", some e⟩ ∧
      (e ∈ catStrings ∨ ∃ s, e = strconvErr s)) := by
  by_cases h12 : (goSplit '\n' output).length < 12
  · right
    exact ⟨"unexpected output format", by simp [parseSSHOutput, h12], Or.inl (by simp [catStrings])⟩
  · have hlen : 12 ≤ (goSplit '\n' output).length := by omega
    have h1 : (goSplit '\n' output)[1]? = some (goSplit '\n' output)[1] :=
      List.getElem?_eq_getElem (by omega)
    have h3 : (goSplit '\n' output)[3]? = some (goSplit '\n' output)[3] :=
      List.getElem?_eq_getElem (by omega)
    have heq : parseSSHOutput output =
        parseSSHOutputCpu (goSplit '\n' output)[1] (goSplit '\n' output)[3]
          (goSplit '\n' output) := by
      simp [parseSSHOutput, h12, h1, h3]
    rw [heq]
    rcases parseSSHOutputCpu_shape (goSplit '\n' output)[1] (goSplit '\n' output)[3]
        (goSplit '\n' output) hlen with ⟨c, m, d, hd⟩ | ⟨e, he, hcat⟩
    · exact Or.inl ⟨c, m, d, _, hd⟩
    · refine Or.inr ⟨e, he, ?_⟩
      rcases hcat with h | h | h | h | h <;> simp [catStrings, h]

theorem parseWithDisk_shape (pf : String → Except String ℚ) (cpu mem : ℚ)
    (uptime : String) (lines : List String) (h : 12 ≤ lines.length) :
    (∃ d, parseWithDisk pf cpu mem uptime lines = some ⟨cpu, mem, d, uptime, none⟩) ∨
    (∃ e, parseWithDisk pf cpu mem uptime lines = some ⟨0, 0, 0, "", some e⟩ ∧
      (e = "unexpected disk usage fields" ∨ ∃ tok, pf tok = Except.error e)) := by
  have h10 : lines[10]? = some lines[10] := List.getElem?_eq_getElem (by omega)
  by_cases hlen : (goFields lines[10]).length < 5
  · right
    exact ⟨"unexpected disk usage fields", by simp [parseWithDisk, h10, hlen], Or.inl rfl⟩
  · have h4 : (goFields lines[10])[4]? = some (goFields lines[10])[4] :=
      List.getElem?_eq_getElem (by omega)
    cases hpf : pf (goTrim ['%', ','] (goFields lines[10])[4]) with
    | error e =>
      right
      refine ⟨e, ?_, Or.inr ⟨goTrim ['%', ','] (goFields lines[10])[4], hpf⟩⟩
      simp [parseWithDisk, h10, hlen, h4, hpf]
    | ok d =>
      left
      exact ⟨d, by simp [parseWithDisk, h10, hlen, h4, hpf]⟩

theorem parseWithMem_shape (pf : String → Except String ℚ) (cpu : ℚ)
    (uptime : String) (lines : List String) (h : 12 ≤ lines.length) :
    (∃ m d, parseWithMem pf cpu uptime lines = some ⟨cpu, m, d, uptime, none⟩) ∨
    (∃ e, parseWithMem pf cpu uptime lines = some ⟨0, 0, 0, "", some e⟩ ∧
      (e = "unexpected memory usage fields" ∨ e = "unexpected disk usage fields" ∨
       ∃ tok, pf tok = Except.error e)) := by
  have h6 : lines[6]? = some lines[6] := List.getElem?_eq_getElem (by omega)
  by_cases hlen : (goFields lines[6]).length < 7
  · right
    exact ⟨"unexpected memory usage fields", by simp [parseWithMem, h6, hlen], Or.inl rfl⟩
  · have h1 : (goFields lines[6])[1]? = some (goFields lines[6])[1] :=
      List.getElem?_eq_getElem (by omega)
    cases hp1 : pf (goFields lines[6])[1] with
    | error e =>
      right
      refine ⟨e, ?_, Or.inr (Or.inr ⟨(goFields lines[6])[1], hp1⟩)⟩
      simp [parseWithMem, h6, hlen, h1, hp1]
    | ok totalMem =>
      have h2 : (goFields lines[6])[2]? = some (goFields lines[6])[2] :=
        List.getElem?_eq_getElem (by omega)
      cases hp2 : pf (goFields lines[6])[2] with
      | error e =>
        right
        refine ⟨e, ?_, Or.inr (Or.inr ⟨(goFields lines[6])[2], hp2⟩)⟩
        simp [parseWithMem, h6, hlen, h1, hp1, h2, hp2]
      | ok usedMem =>
        have heq : parseWithMem pf cpu uptime lines =
            parseWithDisk pf cpu (usedMem / totalMem * 100) uptime lines := by
          simp [parseWithMem, h6, hlen, h1, hp1, h2, hp2]
        rw [heq]
        rcases parseWithDisk_shape pf cpu (usedMem / totalMem * 100) uptime lines h with
          ⟨d, hd⟩ | ⟨e, he, hcat⟩
        · exact Or.inl ⟨usedMem / totalMem * 100, d, hd⟩
        · exact Or.inr ⟨e, he, Or.inr hcat⟩

theorem parseWithCpu_shape (pf : String → Except String ℚ) (uptime line3 : String)
    (lines : List String) (h : 12 ≤ lines.length) :
    (∃ c m d, parseWithCpu pf uptime line3 lines = some ⟨c, m, d, uptime, none⟩) ∨
    (∃ e, parseWithCpu pf uptime line3 lines = some ⟨0, 0, 0, "", some e⟩ ∧
      (e = "unexpected CPU usage format" ∨ e = "unexpected CPU usage fields" ∨
       e = "unexpected memory usage fields" ∨ e = "unexpected disk usage fields" ∨
       ∃ tok, pf tok = Except.error e)) := by
  by_cases hcol : (goSplit ':' line3).length < 2
  · right
    exact ⟨"unexpected CPU usage format", by simp [parseWithCpu, hcol], Or.inl rfl⟩
  · have hseg : (goSplit ':' line3)[1]? = some (goSplit ':' line3)[1] :=
      List.getElem?_eq_getElem (by omega)
    by_cases hflen : (goFields (goSplit ':' line3)[1]).length < 8
    · right
      refine ⟨"unexpected CPU usage fields", ?_, Or.inr (Or.inl rfl)⟩
      simp [parseWithCpu, hcol, hseg, hflen]
    · have h0 : (goFields (goSplit ':' line3)[1])[0]? =
          some (goFields (goSplit ':' line3)[1])[0] :=
        List.getElem?_eq_getElem (by omega)
      cases hpf : pf (goTrim ['%', ','] (goFields (goSplit ':' line3)[1])[0]) with
      | error e =>
        right
        refine ⟨e, ?_, Or.inr (Or.inr (Or.inr (Or.inr
          ⟨goTrim ['%', ','] (goFields (goSplit ':' line3)[1])[0], hpf⟩)))⟩
        simp [parseWithCpu, hcol, hseg, hflen, h0, hpf]
      | ok cpuUsage =>
        have heq : parseWithCpu pf uptime line3 lines =
            parseWithMem pf cpuUsage uptime lines := by
          simp [parseWithCpu, hcol, hseg, hflen, h0, hpf]
        rw [heq]
        rcases parseWithMem_shape pf cpuUsage uptime lines h with
          ⟨m, d, hd⟩ | ⟨e, he, hcat⟩
        · exact Or.inl ⟨cpuUsage, m, d, hd⟩
        · exact Or.inr ⟨e, he, Or.inr (Or.inr hcat)⟩

theorem parseSSHOutputWith_shape (pf : String → Except String ℚ) (output : String) :
    (∃ c m d u, parseSSHOutputWith pf output = some ⟨c, m, d, u, none⟩) ∨
    (∃ e, parseSSHOutputWith pf output = some ⟨0, 0, 0, "", some e⟩ ∧
      (e ∈ catStrings ∨ ∃ tok, pf tok = Except.error e)) := by
  by_cases h12 : (goSplit '\n' output).length < 12
  · right
    exact ⟨"unexpected output format", by simp [parseSSHOutputWith, h12],
      Or.inl (by simp [catStrings])⟩
  · have hlen : 12 ≤ (goSplit '\n' output).length := by omega
    have h1 : (goSplit '\n' output)[1]? = some (goSplit '\n' output)[1] :=
      List.getElem?_eq_getElem (by omega)
    have h3 : (goSplit '\n' output)[3]? = some (goSplit '\n' output)[3] :=
      List.getElem?_eq_getElem (by omega)
    have heq : parseSSHOutputWith pf output =
        parseWithCpu pf (goSplit '\n' output)[1] (goSplit '\n' output)[3]
          (goSplit '\n' output) := by
      simp [parseSSHOutputWith, h12, h1, h3]
    rw [heq]
    rcases parseWithCpu_shape pf (goSplit '\n' output)[1] (goSplit '\n' output)[3]
        (goSplit '\n' output) hlen with ⟨c, m, d, hd⟩ | ⟨e, he, hcat⟩
    · exact Or.inl ⟨c, m, d, _, hd⟩
    · refine Or.inr ⟨e, he, ?_⟩
      rcases hcat with h | h | h | h | h
      · exact Or.inl (by simp [catStrings, h])
      · exact Or.inl (by simp [catStrings, h])
      · exact Or.inl (by simp [catStrings, h])
      · exact Or.inl (by simp [catStrings, h])
      · exact Or.inr h

theorem parseWithDisk_go (cpu mem : ℚ) (uptime : String) (lines : List String) :
    parseWithDisk goParseFloatE cpu mem uptime lines =
      parseSSHOutputDisk cpu mem uptime lines := by
  cases h10 : lines[10]? with
  | none => simp [parseWithDisk, parseSSHOutputDisk, h10]
  | some line10 =>
    by_cases hlen : (goFields line10).length < 5
    · simp [parseWithDisk, parseSSHOutputDisk, h10, hlen]
    · cases h4 : (goFields line10)[4]? with
      | none => simp [parseWithDisk, parseSSHOutputDisk, h10, hlen, h4]
      | some tok4 =>
        cases hpf : parseGoFloat (goTrim ['%', ','] tok4) with
        | none => simp [parseWithDisk, parseSSHOutputDisk, goParseFloatE, h10, hlen, h4, hpf]
        | some v => simp [parseWithDisk, parseSSHOutputDisk, goParseFloatE, h10, hlen, h4, hpf]

theorem parseWithMem_go (cpu : ℚ) (uptime : String) (lines : List String) :
    parseWithMem goParseFloatE cpu uptime lines = parseSSHOutputMem cpu uptime lines := by
  cases h6 : lines[6]? with
  | none => simp [parseWithMem, parseSSHOutputMem, h6]
  | some line6 =>
    by_cases hlen : (goFields line6).length < 7
    · simp [parseWithMem, parseSSHOutputMem, h6, hlen]
    · cases h1 : (goFields line6)[1]? with
      | none => simp [parseWithMem, parseSSHOutputMem, h6, hlen, h1]
      | some tok1 =>
        cases hp1 : parseGoFloat tok1 with
        | none => simp [parseWithMem, parseSSHOutputMem, goParseFloatE, h6, hlen, h1, hp1]
        | some totalMem =>
          cases h2 : (goFields line6)[2]? with
          | none => simp [parseWithMem, parseSSHOutputMem, goParseFloatE, h6, hlen, h1, hp1, h2]
          | some tok2 =>
            cases hp2 : parseGoFloat tok2 with
            | none =>
              simp [parseWithMem, parseSSHOutputMem, goParseFloatE, h6, hlen, h1, hp1, h2, hp2]
            | some usedMem =>
              simp [parseWithMem, parseSSHOutputMem, goParseFloatE, h6, hlen, h1, hp1, h2, hp2,
                parseWithDisk_go]

theorem parseWithCpu_go (uptime line3 : String) (lines : List String) :
    parseWithCpu goParseFloatE uptime line3 lines =
      parseSSHOutputCpu uptime line3 lines := by
  by_cases hcol : (goSplit ':' line3).length < 2
  · simp [parseWithCpu, parseSSHOutputCpu, hcol]
  · cases hseg : (goSplit ':' line3)[1]? with
    | none => simp [parseWithCpu, parseSSHOutputCpu, hcol, hseg]
    | some seg =>
      by_cases hflen : (goFields seg).length < 8
      · simp [parseWithCpu, parseSSHOutputCpu, hcol, hseg, hflen]
      · cases h0 : (goFields seg)[0]? with
        | none => simp [parseWithCpu, parseSSHOutputCpu, hcol, hseg, hflen, h0]
        | some tok0 =>
          cases hpf : parseGoFloat (goTrim ['%', ','] tok0) with
          | none =>
            simp [parseWithCpu, parseSSHOutputCpu, goParseFloatE, hcol, hseg, hflen, h0, hpf]
          | some cpuUsage =>
            simp [parseWithCpu, parseSSHOutputCpu, goParseFloatE, hcol, hseg, hflen, h0, hpf,
              parseWithMem_go]

theorem parseSSHOutputWith_go (output : String) :
    parseSSHOutputWith goParseFloatE output = parseSSHOutput output := by
  by_cases h12 : (goSplit '\n' output).length < 12
  · simp [parseSSHOutputWith, parseSSHOutput, h12]
  · cases h1 : (goSplit '\n' output)[1]? with
    | none => simp [parseSSHOutputWith, parseSSHOutput, h12, h1]
    | some uptime =>
      cases h3 : (goSplit '\n' output)[3]? with
      | none => simp [parseSSHOutputWith, parseSSHOutput, h12, h1, h3]
      | some line3 =>
        simp [parseSSHOutputWith, parseSSHOutput, h12, h1, h3, parseWithCpu_go]

theorem healthStep_sends (i : ℕ) (e : CmdExecution) (st : HealthState) :
    (healthStep i e st).sends = st.sends ++ (timeoutMsgOf i e).toList := by
  rcases hr : runSSHCommand e with ⟨out, _ | err⟩
  · simp only [healthStep, timeoutMsgOf, hr]
    cases hpe : (parseGo out).err <;> simp [hpe]
  · simp only [healthStep, timeoutMsgOf, hr]
    by_cases ht : err = "command timed out" <;> simp [ht]

theorem healthStep_errors (i : ℕ) (e : CmdExecution) (st : HealthState) :
    (healthStep i e st).errorMessages = st.errorMessages ++ (errMsgOf i e).toList := by
  rcases hr : runSSHCommand e with ⟨out, _ | err⟩
  · simp only [healthStep, errMsgOf, hr]
    cases hpe : (parseGo out).err <;> simp [hpe]
  · simp only [healthStep, errMsgOf, hr]
    by_cases ht : err = "command timed out" <;> simp [ht]

theorem healthStep_high (i : ℕ) (e : CmdExecution) (st : HealthState) :
    (healthStep i e st).highUsage = (st.highUsage || execHigh e) := by
  rcases hr : runSSHCommand e with ⟨out, _ | err⟩
  · simp only [healthStep, execHigh, hr]
    cases hpe : (parseGo out).err <;> simp [hpe]
  · simp only [healthStep, execHigh, hr]
    by_cases ht : err = "command timed out" <;> simp [ht]

theorem healthLoop_sends (execs : List CmdExecution) :
    ∀ (i : ℕ) (st : HealthState),
      (healthLoop i execs st).sends = st.sends ++ collectIdx timeoutMsgOf i execs := by
  induction execs with
  | nil => intro i st; simp [healthLoop, collectIdx]
  | cons e rest ih =>
    intro i st
    simp only [healthLoop]
    rw [ih (i + 1) (healthStep i e st), healthStep_sends]
    simp [collectIdx, List.append_assoc]

theorem healthLoop_errors (execs : List CmdExecution) :
    ∀ (i : ℕ) (st : HealthState),
      (healthLoop i execs st).errorMessages =
        st.errorMessages ++ collectIdx errMsgOf i execs := by
  induction execs with
  | nil => intro i st; simp [healthLoop, collectIdx]
  | cons e rest ih =>
    intro i st
    simp only [healthLoop]
    rw [ih (i + 1) (healthStep i e st), healthStep_errors]
    simp [collectIdx, List.append_assoc]

theorem healthLoop_high (execs : List CmdExecution) :
    ∀ (i : ℕ) (st : HealthState),
      (healthLoop i execs st).highUsage = (st.highUsage || execs.any execHigh) := by
  induction execs with
  | nil => intro i st; simp [healthLoop]
  | cons e rest ih =>
    intro i st
    simp only [healthLoop]
    rw [ih (i + 1) (healthStep i e st), healthStep_high]
    simp [Bool.or_assoc]

theorem collectIdx_mem (f : ℕ → CmdExecution → Option String) :
    ∀ (execs : List CmdExecution) (k i : ℕ) (e : CmdExecution) (m : String),
      execs[i]? = some e → f (k + i) e = some m → m ∈ collectIdx f k execs := by
  intro execs
  induction execs with
  | nil => intro k i e m hg _; simp at hg
  | cons x rest ih =>
    intro k i e m hg hf
    cases i with
    | zero =>
      have hx : x = e := by simpa using hg
      subst hx
      rw [Nat.add_zero] at hf
      simp [collectIdx, hf]
    | succ j =>
      have hg' : rest[j]? = some e := by simpa using hg
      have hf' : f (k + 1 + j) e = some m := by
        have harith : k + 1 + j = k + (j + 1) := by omega
        rw [harith]
        exact hf
      exact List.mem_append_right _ (ih (k + 1) j e m hg' hf')

theorem collectIdx_head (f : ℕ → CmdExecution → Option String)
    (hf : ∀ i e m, f i e = some m → m.data.head? = some 'E') :
    ∀ (execs : List CmdExecution) (i : ℕ) (s : String),
      s ∈ collectIdx f i execs → s.data.head? = some 'E' := by
  intro execs
  induction execs with
  | nil => intro i s hs; simp [collectIdx] at hs
  | cons e rest ih =>
    intro i s hs
    rw [collectIdx, List.mem_append] at hs
    rcases hs with hs | hs
    · rcases hfe : f i e with _ | m
      · rw [hfe] at hs; simp at hs
      · rw [hfe] at hs
        simp at hs
        exact hs ▸ hf i e m hfe
    · exact ih (i + 1) s hs

theorem timeoutMsgOf_head (i : ℕ) (e : CmdExecution) (m : String)
    (hm : timeoutMsgOf i e = some m) : m.data.head? = some 'E' := by
  rcases hr : runSSHCommand e with ⟨out, _ | err⟩
  · simp [timeoutMsgOf, hr] at hm
  · simp only [timeoutMsgOf, hr] at hm
    by_cases ht : err = "command timed out"
    · rw [if_pos ht] at hm
      have hm2 := Option.some.inj hm
      rw [← hm2]
      rfl
    · rw [if_neg ht] at hm
      exact absurd hm (by simp)

theorem checkErrorLogStep_state (st : LogState) (ip output : String) :
    (checkErrorLogStep st ip output).state.previousContent = output := by
  by_cases hf : st.isFirstCheck
  · simp [checkErrorLogStep, hf]
  · by_cases he : output = st.previousContent
    · have hne : ¬(output ≠ st.previousContent) := by simpa using he
      simp only [checkErrorLogStep, hf, hne]
      simp [← he]
    · by_cases hc :
        0 < (computeChanges (goSplit '\n' st.previousContent) (goSplit '\n' output)).length <;>
        simp [checkErrorLogStep, hf, he, hc]

theorem checkValidatorStep_state (st : LogState) (ip output : String) :
    (checkValidatorStep st ip output).state.previousContent = output := by
  by_cases hf : st.isFirstCheck
  · simp [checkValidatorStep, hf]
  · by_cases he : output = st.previousContent
    · have hne : ¬(output ≠ st.previousContent) := by simpa using he
      simp only [checkValidatorStep, hf, hne]
      simp [← he]
    · by_cases hc :
        0 < (computeChanges (goSplit '\n' st.previousContent) (goSplit '\n' output)).length <;>
        simp [checkValidatorStep, hf, he, hc]

/-! ## Claims -/

/-- C1, counterexample: main registers no handler, so a GET /checkhealth
receives the default mux's 404 page rather than the claimed 200 response
with the completion body. -/
theorem c1_http_counterexample :
    serveMux "/checkhealth" = ⟨404, "404 page not found\n"⟩ ∧
    serveMux "/checkhealth" ≠ ⟨200, "Health check completed. Check logs for details."⟩ ∧
    listenAddr = ":8002" :=
  ⟨rfl, by decide, rfl⟩

/-- C1, amended: the program binds its HTTP listener on TCP port 8002, but
main registers no handler for /checkhealth (or any path), so every
request, including GET /checkhealth, receives the default mux's 404 Not
Found response and triggers no health probe cycle. -/
theorem c1_http_amended :
    registeredPatterns = [] ∧ listenAddr = ":8002" ∧
    ∀ path : String, serveMux path = ⟨404, "404 page not found\n"⟩ :=
  ⟨rfl, rfl, fun _ => rfl⟩

/-- C2, counterexample: a failure of the messaging-client construction
(tgbotapi.NewBotAPI) makes the send operation panic instead of returning
normally, and a delivery failure of bot.Send is discarded without being
logged. -/
theorem c2_notifier_counterexample :
    (sendTelegramMessage (Except.error "Not Found") (Except.ok ())).1 =
      SendOutcome.panicked "Not Found" ∧
    SendOutcome.panicked "Not Found" ≠ SendOutcome.returned ∧
    sendTelegramMessage (Except.ok ()) (Except.error "network unreachable") =
      (SendOutcome.returned, []) :=
  ⟨rfl, by decide, rfl⟩

/-- C2, amended: when constructing the messaging client fails, the send
operation logs the error and panics via log.Panic (crashing the process);
when construction succeeds, the operation returns normally whatever the
delivery result is, and a delivery error is discarded without being
logged. -/
theorem c2_notifier_amended :
    (∀ (e : String) (r : Except String Unit),
        sendTelegramMessage (Except.error e) r = (SendOutcome.panicked e, [e])) ∧
    (∀ r : Except String Unit,
        sendTelegramMessage (Except.ok ()) r = (SendOutcome.returned, [])) := by
  refine ⟨fun e r => rfl, fun r => ?_⟩
  cases r <;> rfl

/-- C3, counterexample: a non-first validator-log observation whose
computed delta is empty but whose content differs from the stored content
(here a line was removed) sends no notifier message, refuting the claim
that the message is sent whenever the delta is empty. -/
theorem c3_validator_counterexample :
    (checkValidatorStep ⟨false, "A\nB"⟩ "10.0.0.1" "A").sends = [] ∧
    computeChanges (goSplit '\n' "A\nB") (goSplit '\n' "A") = [] ∧
    (⟨false, "A\nB"⟩ : LogState).isFirstCheck = false := by
  refine ⟨?_, ?_, rfl⟩ <;> decide

/-- C3, amended: on the validator stream the liveness message
"Error: Validator is not functioning on server controller@addr." is sent
if and only if the observation is not the first and the new content is
byte-identical to the stored content; when the content differs, no
notifier message is sent even if the computed delta is empty, and the
first observation sends nothing. -/
theorem c3_validator_amended (st : LogState) (ip output : String) :
    (checkValidatorStep st ip output).sends =
      if st.isFirstCheck then []
      else if output = st.previousContent then
        ["Error: Validator is not functioning on server controller@" ++ ip ++ "."]
      else [] := by
  by_cases hf : st.isFirstCheck
  · simp [checkValidatorStep, hf]
  · by_cases he : output = st.previousContent
    · have hne : ¬(output ≠ st.previousContent) := by simpa using he
      simp only [checkValidatorStep, hf, hne]
      simp [he]
    · by_cases hc :
        0 < (computeChanges (goSplit '\n' st.previousContent) (goSplit '\n' output)).length <;>
        simp [checkValidatorStep, hf, he, hc]

/-- C9, counterexample: an already-stored stream state with non-empty
content is overwritten with the empty string by a successful observation
whose output is empty, on both streams; the invariant claimed by the
specification does not hold. -/
theorem c9_snapshot_counterexample :
    (checkErrorLogStep ⟨false, "A"⟩ "10.0.0.1" "").state.previousContent = "" ∧
    (checkValidatorStep ⟨false, "A"⟩ "10.0.0.1" "").state.previousContent = "" ∧
    ("A" : String) ≠ "" := by
  refine ⟨?_, ?_, by decide⟩ <;> decide

/-- C9, amended: after any successful observation the stored content of
either stream equals the observed content, so the stored content stays
non-empty as long as every observed snapshot is non-empty; an empty
observed snapshot, however, does clear it. -/
theorem c9_snapshot_amended (st : LogState) (ip output : String) (h : output ≠ "") :
    (checkErrorLogStep st ip output).state.previousContent ≠ "" ∧
    (checkValidatorStep st ip output).state.previousContent ≠ "" := by
  rw [checkErrorLogStep_state, checkValidatorStep_state]
  exact ⟨h, h⟩

theorem c9_snapshot_witness :
    ("X" : String) ≠ "" ∧
    ((checkErrorLogStep ⟨true, ""⟩ "10.0.0.1" "X").state.previousContent ≠ "" ∧
     (checkValidatorStep ⟨true, ""⟩ "10.0.0.1" "X").state.previousContent ≠ "") :=
  ⟨by decide, c9_snapshot_amended ⟨true, ""⟩ "10.0.0.1" "X" (by decide)⟩

/-- C8, counterexample: for string-level concatenation new = old ++
appended, the computed delta is not the filtered lines of appended: with
old = "A" and appended = "B" the last old line merges with the appended
text and the delta is ["AB"], not ["B"]; with appended = "\nB" the delta
is ["B"] while the filtered lines of appended are ["", "B"]. -/
theorem c8_delta_counterexample :
    computeChanges (goSplit '\n' "A") (goSplit '\n' ("A" ++ "B")) = ["AB"] ∧
    (goSplit '\n' "B").filter (fun l => !contains (goSplit '\n' "A") l) = ["B"] ∧
    (["AB"] : List String) ≠ ["B"] ∧
    computeChanges (goSplit '\n' "A") (goSplit '\n' ("A" ++ "\nB")) = ["B"] ∧
    (goSplit '\n' "\nB").filter (fun l => !contains (goSplit '\n' "A") l) = ["", "B"] ∧
    (["B"] : List String) ≠ ["", "B"] := by
  refine ⟨?_, ?_, ?_, ?_, ?_, ?_⟩ <;> decide

/-- C8, amended: the computed delta is exactly the filter of the new
snapshot's lines by non-membership in the old snapshot's lines (order
preserved, duplicates kept); and when new = old ++ "\n" ++ appended, so
that the lines of new are the lines of old followed by the lines of
appended, the delta equals the lines of appended not present anywhere in
the old lines. -/
theorem c8_delta_amended :
    (∀ old new : String,
        computeChanges (goSplit '\n' old) (goSplit '\n' new) =
          (goSplit '\n' new).filter (fun l => !contains (goSplit '\n' old) l)) ∧
    (∀ old appended : String,
        computeChanges (goSplit '\n' old) (goSplit '\n' (old ++ "\n" ++ appended)) =
          (goSplit '\n' appended).filter (fun l => !contains (goSplit '\n' old) l)) := by
  refine ⟨fun old new => computeChanges_eq_filter _ _, fun old appended => ?_⟩
  rw [computeChanges_eq_filter, goSplit_newline_append, List.filter_append]
  have hnil : (goSplit '\n' old).filter (fun l => !contains (goSplit '\n' old) l) = [] := by
    rw [List.filter_eq_nil_iff]
    intro a ha
    simp [(contains_iff_mem _ _).mpr ha]
  rw [hnil, List.nil_append]

/-- C10: the metric parser is total and panic-free: on every input it
returns some Go five-value result (never the none that models an
out-of-range indexing panic), and whenever the error is non-nil the four
value components are the zero values. -/
theorem c10_parse_total (output : String) :
    ∃ r, parseSSHOutput output = some r ∧
      (r.err = none ∨
        (r.cpu = 0 ∧ r.mem = 0 ∧ r.disk = 0 ∧ r.uptime = "" ∧ ∃ e, r.err = some e)) := by
  rcases parseSSHOutput_shape output with ⟨c, m, d, u, hr⟩ | ⟨e, hr, _⟩
  · exact ⟨_, hr, Or.inl rfl⟩
  · exact ⟨_, hr, Or.inr ⟨rfl, rfl, rfl, rfl, e, rfl⟩⟩

/-- C5, counterexample: a CPU token that fails numeric conversion makes
the parse fail with the strconv.ParseFloat error text, which is not one
of the five categorized strings. -/
theorem c5_parse_errors_counterexample :
    parseSSHOutput cpuBadTokenInput = some ⟨0, 0, 0, "", some (strconvErr "x1")⟩ ∧
    strconvErr "x1" ∉ catStrings := by
  refine ⟨?_, ?_⟩ <;> decide

/-- C5, amended: for every conversion behaviour of strconv.ParseFloat
(kept abstract because its exact messages, such as the out-of-range text
and strconv.Quote escaping, belong to the Go standard library), every
parse failure returns either one of the five categorized strings
(structural failures) or the error message the conversion produced for
the token whose conversion failed; since every strconv.ParseFloat error
begins with "strconv.ParseFloat: parsing ", the latter is never one of
the five category strings.  Numeric conversion failures thus fail the
whole parse, but with the strconv error rather than a category string. -/
theorem c5_parse_errors_amended (pf : String → Except String ℚ)
    (hpf : ∀ t e, pf t = Except.error e →
      ∃ suffix, e = "strconv.ParseFloat: parsing " ++ suffix)
    (output : String) (r : ParsedOutput) (e : String)
    (h1 : parseSSHOutputWith pf output = some r) (h2 : r.err = some e) :
    e ∈ catStrings ∨ ((∃ tok, pf tok = Except.error e) ∧ e ∉ catStrings) := by
  rcases parseSSHOutputWith_shape pf output with ⟨c, m, d, u, hr⟩ | ⟨e', hr, hcat⟩
  · rw [h1] at hr
    have hre := Option.some.inj hr
    rw [hre] at h2
    exact absurd h2 (by simp)
  · rw [h1] at hr
    have hre := Option.some.inj hr
    rw [hre] at h2
    simp only [Option.some.injEq] at h2
    rw [← h2]
    rcases hcat with hc | ⟨tok, htok⟩
    · exact Or.inl hc
    · refine Or.inr ⟨⟨tok, htok⟩, ?_⟩
      rcases hpf tok e' htok with ⟨suffix, hsuf⟩
      intro hmem
      have hu : e'.data.head? = some 'u' := by
        simp only [catStrings, List.mem_cons, List.not_mem_nil, or_false] at hmem
        rcases hmem with h | h | h | h | h <;> (rw [h]; rfl)
      have hs : e'.data.head? = some 's' := by rw [hsuf]; rfl
      rw [hs] at hu
      exact absurd hu (by decide)

theorem c5_parse_errors_witness :
    parseSSHOutputWith rangeErrConv cpuBadTokenInput =
      some ⟨0, 0, 0, "", some "strconv.ParseFloat: parsing \"q\": value out of range"⟩ ∧
    ("strconv.ParseFloat: parsing \"q\": value out of range" ∈ catStrings ∨
      ((∃ tok, rangeErrConv tok =
          Except.error "strconv.ParseFloat: parsing \"q\": value out of range") ∧
        "strconv.ParseFloat: parsing \"q\": value out of range" ∉ catStrings)) :=
  ⟨by decide, c5_parse_errors_amended rangeErrConv
    (fun t e he => ⟨"\"q\": value out of range", by
      have h := Except.error.inj he
      rw [← h]
      decide⟩)
    cpuBadTokenInput
    ⟨0, 0, 0, "", some "strconv.ParseFloat: parsing \"q\": value out of range"⟩
    "strconv.ParseFloat: parsing \"q\": value out of range" (by decide) rfl⟩

/-- C4, counterexample: on a CPU line with two colons the parser
tokenizes only the segment between the first and second colon, not the
entire right side of the first colon: the input below fails with the
fields error although the whole right side of the first colon has 8
whitespace tokens; moreover the token cleanup strips '%' and ',' from
both ends (",5.0%" becomes the parsable "5.0"), not only trailing ones
(which would leave the unparsable ",5.0"). -/
theorem c4_cpu_line_counterexample :
    parseSSHOutput cpuTwoColonInput =
      some ⟨0, 0, 0, "", some "unexpected CPU usage fields"⟩ ∧
    claimRightOfFirstColon "c: x:a b c d e f g h" = " x:a b c d e f g h" ∧
    (goFields (claimRightOfFirstColon "c: x:a b c d e f g h")).length = 8 ∧
    ¬((goFields (claimRightOfFirstColon "c: x:a b c d e f g h")).length < 8) ∧
    goTrim ['%', ','] ",5.0%" = "5.0" ∧
    claimTrimTrailing ",5.0%" = ",5.0" ∧
    parseGoFloat ",5.0" = none ∧
    (parseGoFloat "5.0").isSome = true := by
  refine ⟨?_, ?_, ?_, ?_, ?_, ?_, ?_, ?_⟩ <;> decide

/-- C4, amended: the parser splits the CPU line at every ':' and
whitespace-tokenizes the segment between the first and second colon (the
whole right side only when the line has exactly one colon); the parse
fails with the CPU fields error exactly when that segment yields fewer
than 8 whitespace tokens, and on a successful parse cpu_pct is token 0 of
that segment with leading and trailing '%' and ',' characters stripped,
converted by ParseFloat. -/
theorem c4_cpu_line_amended (output line3 seg : String)
    (h12 : ¬(goSplit '\n' output).length < 12)
    (h3 : (goSplit '\n' output)[3]? = some line3)
    (hseg : (goSplit ':' line3)[1]? = some seg) :
    (parseSSHOutput output = some ⟨0, 0, 0, "", some "unexpected CPU usage fields"⟩ ↔
      (goFields seg).length < 8) ∧
    (∀ (c m d : ℚ) (u tok0 : String),
        parseSSHOutput output = some ⟨c, m, d, u, none⟩ →
        (goFields seg)[0]? = some tok0 →
        parseGoFloat (goTrim ['%', ','] tok0) = some c) := by
  have hlen : 12 ≤ (goSplit '\n' output).length := by omega
  have h1 : (goSplit '\n' output)[1]? = some (goSplit '\n' output)[1] :=
    List.getElem?_eq_getElem (by omega)
  have hcol2 : 1 < (goSplit ':' line3).length := by
    by_contra hlt
    rw [List.getElem?_eq_none (by omega)] at hseg
    exact absurd hseg (by simp)
  have hcol : ¬(goSplit ':' line3).length < 2 := by omega
  have heq : parseSSHOutput output =
      parseSSHOutputCpu (goSplit '\n' output)[1] line3 (goSplit '\n' output) := by
    simp [parseSSHOutput, h12, h1, h3]
  by_cases hflen : (goFields seg).length < 8
  · have hres : parseSSHOutput output =
        some ⟨0, 0, 0, "", some "unexpected CPU usage fields"⟩ := by
      rw [heq]
      simp [parseSSHOutputCpu, hcol, hseg, hflen]
    refine ⟨⟨fun _ => hflen, fun _ => hres⟩, ?_⟩
    intro c m d u tok0 hsucc _
    rw [hres] at hsucc
    have herr := congrArg ParsedOutput.err (Option.some.inj hsucc)
    exact absurd herr (by simp)
  · have h0 : (goFields seg)[0]? = some (goFields seg)[0] :=
      List.getElem?_eq_getElem (by omega)
    rcases hpf : parseGoFloat (goTrim ['%', ','] (goFields seg)[0]) with _ | cpuUsage
    · have hres : parseSSHOutput output =
          some ⟨0, 0, 0, "", some (strconvErr (goTrim ['%', ','] (goFields seg)[0]))⟩ := by
        rw [heq]
        simp [parseSSHOutputCpu, hcol, hseg, hflen, h0, hpf]
      refine ⟨⟨?_, fun hcontra => absurd hcontra hflen⟩, ?_⟩
      · intro hcontra
        rw [hres] at hcontra
        have herr := congrArg ParsedOutput.err (Option.some.inj hcontra)
        simp only [Option.some.injEq] at herr
        exact absurd herr (strconvErr_ne_u _ _ rfl)
      · intro c m d u tok0 hsucc _
        rw [hres] at hsucc
        have herr := congrArg ParsedOutput.err (Option.some.inj hsucc)
        exact absurd herr (by simp)
    · have hres : parseSSHOutput output =
          parseSSHOutputMem cpuUsage (goSplit '\n' output)[1] (goSplit '\n' output) := by
        rw [heq]
        simp [parseSSHOutputCpu, hcol, hseg, hflen, h0, hpf]
      rcases parseSSHOutputMem_shape cpuUsage (goSplit '\n' output)[1] (goSplit '\n' output)
          hlen with ⟨m, d, hd⟩ | ⟨e, he, hcat⟩
      · refine ⟨⟨?_, fun hcontra => absurd hcontra hflen⟩, ?_⟩
        · intro hcontra
          rw [hres, hd] at hcontra
          have herr := congrArg ParsedOutput.err (Option.some.inj hcontra)
          exact absurd herr (by simp)
        · intro c m' d' u tok0 hsucc htok
          rw [hres, hd] at hsucc
          have hc : cpuUsage = c := congrArg ParsedOutput.cpu (Option.some.inj hsucc)
          have htok0 : tok0 = (goFields seg)[0] := by
            rw [h0] at htok
            exact (Option.some.inj htok).symm
          rw [htok0, hpf, hc]
      · refine ⟨⟨?_, fun hcontra => absurd hcontra hflen⟩, ?_⟩
        · intro hcontra
          rw [hres, he] at hcontra
          have hecat := congrArg ParsedOutput.err (Option.some.inj hcontra)
          simp only [Option.some.injEq] at hecat
          rcases hcat with h | h | ⟨s, h⟩
          · rw [h] at hecat; exact absurd hecat (by decide)
          · rw [h] at hecat; exact absurd hecat (by decide)
          · rw [h] at hecat; exact absurd hecat (strconvErr_ne_u _ _ rfl)
        · intro c m' d' u tok0 hsucc _
          rw [hres, he] at hsucc
          have herr := congrArg ParsedOutput.err (Option.some.inj hsucc)
          exact absurd herr (by simp)

theorem c4_cpu_line_witness :
    (parseSSHOutput cpuTwoColonInput =
        some ⟨0, 0, 0, "", some "unexpected CPU usage fields"⟩ ↔
      (goFields " x").length < 8) ∧
    (∀ (c m d : ℚ) (u tok0 : String),
        parseSSHOutput cpuTwoColonInput = some ⟨c, m, d, u, none⟩ →
        (goFields " x")[0]? = some tok0 →
        parseGoFloat (goTrim ['%', ','] tok0) = some c) :=
  c4_cpu_line_amended cpuTwoColonInput "c: x:a b c d e f g h" " x"
    (by decide) (by decide) (by decide)

/-- C6: the highUsage flag of a health cycle is set iff some host's
command ran cleanly and parsed with cpu, mem or disk strictly greater
than 80 (exactly 80 does not count), and exactly then the warning message
is sent to the notifier while nothing goes to the local log; otherwise
the final report is only logged locally. -/
theorem c6_threshold (execs : List CmdExecution) :
    ((healthLoop 0 execs ⟨[], [], false, []⟩).highUsage = execs.any execHigh) ∧
    (∀ e : CmdExecution, execHigh e = true ↔
      ∃ output, runSSHCommand e = (output, none) ∧ (parseGo output).err = none ∧
        (80 < (parseGo output).cpu ∨ 80 < (parseGo output).mem ∨
         80 < (parseGo output).disk)) ∧
    ((checkHealth execs).2.2 =
      if (healthLoop 0 execs ⟨[], [], false, []⟩).highUsage then []
      else ["Health Check:\n" ++
        String.intercalate "\n" (healthLoop 0 execs ⟨[], [], false, []⟩).messages]) ∧
    (("Warning: High resource usage detected!\n" ++ ("Health Check:\n" ++
        String.intercalate "\n" (healthLoop 0 execs ⟨[], [], false, []⟩).messages)) ∈
        (checkHealth execs).2.1 ↔
      (healthLoop 0 execs ⟨[], [], false, []⟩).highUsage = true) := by
  refine ⟨by simpa using healthLoop_high execs 0 ⟨[], [], false, []⟩, ?_, rfl, ?_⟩
  · intro e
    rcases hr : runSSHCommand e with ⟨out, _ | err⟩
    · simp only [execHigh, hr]
      simp
      intro _
      exact or_assoc
    · simp [execHigh, hr]
  · have hsends : (checkHealth execs).2.1 =
        (healthLoop 0 execs ⟨[], [], false, []⟩).sends ++
        (if (healthLoop 0 execs ⟨[], [], false, []⟩).highUsage then
           ["Warning: High resource usage detected!\n" ++ ("Health Check:\n" ++
             String.intercalate "\n" (healthLoop 0 execs ⟨[], [], false, []⟩).messages)]
         else []) ++
        (if 0 < (healthLoop 0 execs ⟨[], [], false, []⟩).errorMessages.length then
           ["Errors occurred during health check:\n" ++
             String.intercalate "\n" (healthLoop 0 execs ⟨[], [], false, []⟩).errorMessages]
         else []) := rfl
    rw [hsends]
    have hW : ∀ X : String, ("Warning: High resource usage detected!\n" ++ X).data.head? =
        some 'W' := fun X => rfl
    cases hh : (healthLoop 0 execs ⟨[], [], false, []⟩).highUsage
    · simp only [hh, Bool.false_eq_true, if_false, List.append_nil]
      constructor
      · intro hmem
        exfalso
        rw [List.mem_append] at hmem
        rcases hmem with hmem | hmem
        · have hsleft : (healthLoop 0 execs ⟨[], [], false, []⟩).sends =
              collectIdx timeoutMsgOf 0 execs := by
            simpa using healthLoop_sends execs 0 ⟨[], [], false, []⟩
          rw [hsleft] at hmem
          have hE := collectIdx_head timeoutMsgOf timeoutMsgOf_head execs 0 _ hmem
          rw [hW] at hE
          exact absurd hE (by decide)
        · by_cases hc : 0 < (healthLoop 0 execs ⟨[], [], false, []⟩).errorMessages.length
          · rw [if_pos hc] at hmem
            have heq := List.mem_singleton.mp hmem
            have h1 := hW ("Health Check:\n" ++
              String.intercalate "\n" (healthLoop 0 execs ⟨[], [], false, []⟩).messages)
            rw [heq] at h1
            have h2 : ("Errors occurred during health check:\n" ++
                String.intercalate "\n"
                  (healthLoop 0 execs ⟨[], [], false, []⟩).errorMessages).data.head? =
                some 'E' := rfl
            rw [h2] at h1
            exact absurd h1 (by decide)
          · rw [if_neg hc] at hmem
            simp at hmem
      · intro hfalse
        exact absurd hfalse (by decide)
    · refine ⟨fun _ => rfl, fun _ => ?_⟩
      simp

/-- C7: a command whose execution exceeds the 10-second deadline makes the
runner return the distinguished timeout error with the partial output
discarded; the health cycle then sends the per-host timeout message to the
notifier and contributes nothing to the aggregated error list, while every
other non-zero exit within the deadline is accumulated into the error
list (Go exec run errors never carry the exact text "command timed out",
which the code uses as the discriminator). -/
theorem c7_timeout (execs : List CmdExecution) (i : ℕ) (e : CmdExecution)
    (hget : execs[i]? = some e) (hdl : sshTimeoutSeconds < e.duration) :
    runSSHCommand e = ("", some "command timed out") ∧
    ("Error: SSH command to server " ++ goItoa (i + 1) ++ " timed out") ∈
      (checkHealth execs).2.1 ∧
    errMsgOf i e = none ∧
    (healthLoop 0 execs ⟨[], [], false, []⟩).errorMessages = collectIdx errMsgOf 0 execs ∧
    (∀ (j : ℕ) (e' : CmdExecution) (reason : String),
        execs[j]? = some e' → e'.duration < sshTimeoutSeconds →
        e'.exitErr = some reason → reason ≠ "command timed out" →
        ("Error running SSH command for server " ++ goItoa (j + 1) ++ ": " ++ reason) ∈
          (healthLoop 0 execs ⟨[], [], false, []⟩).errorMessages) := by
  have hrun : runSSHCommand e = ("", some "command timed out") := by
    simp [runSSHCommand, le_of_lt hdl]
  refine ⟨hrun, ?_, by simp [errMsgOf, hrun], ?_, ?_⟩
  · have htm : timeoutMsgOf i e =
        some ("Error: SSH command to server " ++ goItoa (i + 1) ++ " timed out") := by
      simp [timeoutMsgOf, hrun]
    have hmem := collectIdx_mem timeoutMsgOf execs 0 i e _ hget
      (by rw [Nat.zero_add]; exact htm)
    have hsleft : (healthLoop 0 execs ⟨[], [], false, []⟩).sends =
        collectIdx timeoutMsgOf 0 execs := by
      simpa using healthLoop_sends execs 0 ⟨[], [], false, []⟩
    have hsends : (checkHealth execs).2.1 =
        (healthLoop 0 execs ⟨[], [], false, []⟩).sends ++
        (if (healthLoop 0 execs ⟨[], [], false, []⟩).highUsage then
           ["Warning: High resource usage detected!\n" ++ ("Health Check:\n" ++
             String.intercalate "\n" (healthLoop 0 execs ⟨[], [], false, []⟩).messages)]
         else []) ++
        (if 0 < (healthLoop 0 execs ⟨[], [], false, []⟩).errorMessages.length then
           ["Errors occurred during health check:\n" ++
             String.intercalate "\n" (healthLoop 0 execs ⟨[], [], false, []⟩).errorMessages]
         else []) := rfl
    rw [hsends]
    exact List.mem_append_left _ (List.mem_append_left _ (hsleft ▸ hmem))
  · simpa using healthLoop_errors execs 0 ⟨[], [], false, []⟩
  · intro j e' reason hj hdur hexit hne
    have hle : ¬ sshTimeoutSeconds ≤ e'.duration := by omega
    have hrun' : runSSHCommand e' = ("", some reason) := by
      simp [runSSHCommand, hle, hexit]
    have herr : errMsgOf j e' =
        some ("Error running SSH command for server " ++ goItoa (j + 1) ++ ": " ++ reason) := by
      simp [errMsgOf, hrun', hne]
    have hmem := collectIdx_mem errMsgOf execs 0 j e' _ hj
      (by rw [Nat.zero_add]; exact herr)
    rw [healthLoop_errors execs 0 ⟨[], [], false, []⟩]
    simpa using hmem

theorem c7_timeout_witness :
    runSSHCommand ⟨11, none, "partial out"⟩ = ("", some "command timed out") ∧
    ("Error: SSH command to server " ++ goItoa (0 + 1) ++ " timed out") ∈
      (checkHealth [⟨11, none, "partial out"⟩]).2.1 ∧
    errMsgOf 0 ⟨11, none, "partial out"⟩ = none ∧
    (healthLoop 0 [⟨11, none, "partial out"⟩] ⟨[], [], false, []⟩).errorMessages =
      collectIdx errMsgOf 0 [⟨11, none, "partial out"⟩] ∧
    (∀ (j : ℕ) (e' : CmdExecution) (reason : String),
        ([⟨11, none, "partial out"⟩] : List CmdExecution)[j]? = some e' →
        e'.duration < sshTimeoutSeconds → e'.exitErr = some reason →
        reason ≠ "command timed out" →
        ("Error running SSH command for server " ++ goItoa (j + 1) ++ ": " ++ reason) ∈
          (healthLoop 0 [⟨11, none, "partial out"⟩] ⟨[], [], false, []⟩).errorMessages) :=
  c7_timeout [⟨11, none, "partial out"⟩] 0 ⟨11, none, "partial out"⟩ rfl (by decide)
